import Mathlib

deriving instance DecidableEq for Except

/-!
Verification of the Content Moderation System (CMS) pipeline
(`user_flag_app.py`): a shallow embedding of the data model, the
database manager, the remote-service client, the row loop of
`ContentModerationSystem.process`, and the CSV report writer, together
with theorems settling the specification claims.

Modelling conventions:
* SQLite rows of the `user_activity` table become `Entry` values; the
  table contents are a `List Entry` threaded explicitly.
* The two remote services are oracles (`tSvc`, `sSvc`): functions from
  the request message to a `QueryResult` (either a transport failure,
  which `requests.post` raises as `RequestException`, or an HTTP
  response carrying a status code and a parsed JSON payload).  Payload
  fields carry values of the schema types given in the spec (text for
  `translated_message`, number for `score`); field absence is `none`.
* Python floats become `Rat` (exact arithmetic; the properties in the spec
  are stated "within floating-point tolerance").
* The filesystem is an oracle `fs : String → Option CsvFile`; `none`
  models a path that cannot be opened (`IOError`).
* Python exceptions become the `Err` type; `Except Err` replaces
  raising.
-/

namespace CMS

/-- One row of the `user_activity` table (the auto-assigned `id` column
is never read by the program, so it is not modelled).  `store_user_activity`
always binds a string and a number, so the columns are non-nullable in
this model. -/
structure Entry where
  user_id : Int
  translated_message : String
  calculated_score : Rat
  deriving DecidableEq, Repr

/-- One aggregated row produced by `generate_user_statistics`. -/
structure UserStat where
  user_id : Int
  total_messages : Nat
  avg_score : Rat
  deriving DecidableEq, Repr

namespace DatabaseManager

/-- The method `DatabaseManager.initialize` of the source: `CREATE TABLE IF NOT
EXISTS` followed by `DELETE FROM user_activity` — whatever the table held
before, afterwards it exists and is empty. -/
def initializeDb (_store : List Entry) : List Entry := []

/-- `DatabaseManager.store_user_activity`: one `INSERT` appending a row. -/
def store_user_activity (store : List Entry) (user_id : Int)
    (translated_message : String) (calculated_score : Rat) : List Entry :=
  store ++ [⟨user_id, translated_message, calculated_score⟩]

/-- `DatabaseManager.generate_user_statistics`:
`SELECT user_id, count(translated_message), avg(calculated_score)
FROM user_activity GROUP BY user_id`.  One output row per distinct
`user_id`; `count` counts the non-NULL `translated_message` values of the
group — in this model that column is never NULL, so it is the group size;
`avg` is the mean `calculated_score` of the group.  (SQL leaves the order of
the groups unspecified; `List.dedup` fixes one concrete order here.) -/
def generate_user_statistics (store : List Entry) : List UserStat :=
  ((store.map Entry.user_id).dedup).map (fun u =>
    let scores := (store.filter (fun e => e.user_id == u)).map Entry.calculated_score
    { user_id := u
      total_messages := scores.length
      avg_score := scores.sum / (scores.length : Rat) })

end DatabaseManager

/-- A parsed JSON response payload, restricted to the fields the program
reads.  A field that is absent from the JSON object is `none`. -/
structure Payload where
  error : Option String
  translated_message : Option String
  score : Option Rat
  deriving DecidableEq, Repr

/-- Outcome of one `requests.post` call: either the request raises
`RequestException` (connection refused, timeout, …) or an HTTP response
with a status code and a JSON payload comes back. -/
inductive QueryResult where
  | transportError (detail : String)
  | response (status : Nat) (payload : Payload)
  deriving DecidableEq, Repr

/-- Python exceptions raised by the pipeline. -/
inductive Err where
  | missingFileArgument
  | ioError
  | keyError (field : String)
  | typeError
  | valueError (s : String)
  | apiServiceError
  | requestException (detail : String)
  deriving DecidableEq, Repr

/-- `ContentModerationSystem._query_service`: posts `message`, re-raises
`RequestException`, and otherwise returns `response.json()`.  The HTTP
status code is never inspected. -/
def query_service {α : Type} (svc : α → QueryResult) (message : α) :
    Except Err Payload :=
  match svc message with
  | .transportError d => .error (.requestException d)
  | .response _ p => .ok p

/-- `ContentModerationSystem._get_translated_message`: raises
`APIServiceError` when the payload has an `error` field, otherwise
returns the `translated_message` field of the payload, defaulting
to the empty string.  (The Python caller can
pass `None` as the message when a short CSV row left the field empty,
hence the `Option String` argument.) -/
def get_translated_message (tSvc : Option String → QueryResult)
    (message : Option String) : Except Err String :=
  match query_service tSvc message with
  | .error e => .error e
  | .ok p =>
    if p.error.isSome then .error .apiServiceError
    else .ok (p.translated_message.getD "")

/-- `ContentModerationSystem._get_score`: raises `APIServiceError` when
the payload has an `error` field, otherwise returns the `score` field of
the payload, defaulting to 0.0. -/
def get_score (sSvc : String → QueryResult) (translated_message : String) :
    Except Err Rat :=
  match query_service sSvc translated_message with
  | .error e => .error e
  | .ok p =>
    if p.error.isSome then .error .apiServiceError
    else .ok (p.score.getD 0)

/-- Zero codepoint of every contiguous run of ten Unicode decimal digits
(category Nd, Unicode 14 as shipped with the CPython 3.11 runtime): these
are exactly the characters the CPython `int` conversion accepts as
digits, each worth its offset from the zero of its run. -/
def ndZeroCodes : List Nat :=
  [0x30, 0x660, 0x6F0, 0x7C0, 0x966, 0x9E6, 0xA66, 0xAE6, 0xB66, 0xBE6,
   0xC66, 0xCE6, 0xD66, 0xDE6, 0xE50, 0xED0, 0xF20, 0x1040, 0x1090,
   0x17E0, 0x1810, 0x1946, 0x19D0, 0x1A80, 0x1A90, 0x1B50, 0x1BB0,
   0x1C40, 0x1C50, 0xA620, 0xA8D0, 0xA900, 0xA9D0, 0xA9F0, 0xAA50,
   0xABF0, 0xFF10, 0x104A0, 0x10D30, 0x11066, 0x110F0, 0x11136, 0x111D0,
   0x112F0, 0x11450, 0x114D0, 0x11650, 0x116C0, 0x11730, 0x118E0,
   0x11950, 0x11C50, 0x11D50, 0x11DA0, 0x16A60, 0x16AC0, 0x16B50,
   0x1D7CE, 0x1D7D8, 0x1D7E2, 0x1D7EC, 0x1D7F6, 0x1E140, 0x1E2F0,
   0x1E950, 0x1FBF0]

/-- Decimal value of a character for the CPython `int` conversion:
`some d` when the character is a Unicode decimal digit of value `d`
(ASCII digits are kept as-is by the conversion; every other decimal
digit is mapped to its value), `none` otherwise. -/
def pyDigitVal (c : Char) : Option Nat :=
  (ndZeroCodes.find? (fun z => z ≤ c.toNat && c.toNat ≤ z + 9)).map
    (fun z => c.toNat - z)

/-- Digits of an integer literal after the first one: the CPython `int`
conversion allows a single underscore between two digits. -/
def parseDigitsRest (acc : Nat) : List Char → Option Nat
  | [] => some acc
  | '_' :: c :: cs =>
    match pyDigitVal c with
    | some d => parseDigitsRest (acc * 10 + d) cs
    | none => none
  | ['_'] => none
  | c :: cs =>
    match pyDigitVal c with
    | some d => parseDigitsRest (acc * 10 + d) cs
    | none => none

/-- A non-empty digit string, underscores permitted between digits. -/
def parseDigits : List Char → Option Nat
  | [] => none
  | c :: cs =>
    match pyDigitVal c with
    | some d => parseDigitsRest d cs
    | none => none

/-- Codepoints the CPython `int` conversion strips as surrounding
whitespace: its base-ten parser skips the six ASCII whitespace
characters, and the preceding transform turns every non-ASCII Unicode
whitespace character (NBSP, ogham space, en quad … ideographic space)
into a plain space — but leaves ASCII controls 1C–1F alone, so those are
not stripped even though Python classifies them as whitespace. -/
def pySpaceCodes : List Nat :=
  [0x9, 0xA, 0xB, 0xC, 0xD, 0x20, 0x85, 0xA0, 0x1680,
   0x2000, 0x2001, 0x2002, 0x2003, 0x2004, 0x2005, 0x2006, 0x2007,
   0x2008, 0x2009, 0x200A, 0x2028, 0x2029, 0x202F, 0x205F, 0x3000]

/-- Whitespace stripped by the CPython `int` conversion around the
literal. -/
def isPySpace (c : Char) : Bool := pySpaceCodes.contains c.toNat

/-- Strip leading and trailing whitespace. -/
def stripChars (cs : List Char) : List Char :=
  ((cs.dropWhile isPySpace).reverse.dropWhile isPySpace).reverse

/-- The CPython `int` conversion of a string `s`: surrounding whitespace
(`pySpaceCodes`), an optional ASCII sign, then a non-empty run of
Unicode decimal digits (single underscores allowed between digits);
`none` models `ValueError`.  Any other character — including a Unicode
sign, an ASCII control, or an interior space — makes the conversion
fail. -/
def pyIntParse (s : String) : Option Int :=
  match stripChars s.toList with
  | '+' :: rest => (parseDigits rest).map Int.ofNat
  | '-' :: rest => (parseDigits rest).map (fun n => -(n : Int))
  | rest => (parseDigits rest).map Int.ofNat

/-- A row as produced by `csv.DictReader`: an association list from
column name to cell value, where a `none` value is Python `None`
(the `restval` filled in for a short row). -/
abbrev Row := List (String × Option String)

/-- Python dict lookup `row[k]` on a `Row` built by zipping (with
duplicate keys, the last binding wins): `none` is a `KeyError`. -/
def dictGet (row : Row) (k : String) : Option (Option String) :=
  ((row.filter (fun p => p.1 == k)).getLast?).map Prod.snd

/-- A CSV file: the header line and the remaining raw lines. -/
structure CsvFile where
  header : List String
  rows : List (List String)
  deriving DecidableEq, Repr

/-- The dict `csv.DictReader` builds for one raw row: cells are zipped against the
header; when the row is short the remaining columns get `restval = None`;
extra cells beyond the header are keyed by `restkey`, which the program
never reads, so they are dropped. -/
def rowDict (header : List String) (raw : List String) : Row :=
  header.zip (raw.map some ++ List.replicate (header.length - raw.length) none)

/-- `csv.DictReader` over a file: blank rows are skipped, every other row
becomes a dict. -/
def dictReader (f : CsvFile) : List Row :=
  (f.rows.filter (fun r => !r.isEmpty)).map (rowDict f.header)

/-- `ContentModerationSystem._get_input`: opening the path raises
`IOError` when it cannot be opened (re-raised by the generator);
otherwise the rows stream out of `csv.DictReader`. -/
def get_input (file : Option CsvFile) : Except Err (List Row) :=
  match file with
  | none => .error .ioError
  | some f => .ok (dictReader f)

/-- The `user_id` lookup and int conversion in the orchestrator:
`KeyError` when the column is absent, `TypeError` on the conversion of
`None`, `ValueError` when the string is not an integer literal. -/
def getUserId (row : Row) : Except Err Int :=
  match dictGet row "user_id" with
  | none => .error (.keyError "user_id")
  | some none => .error .typeError
  | some (some s) =>
    match pyIntParse s with
    | none => .error (.valueError s)
    | some n => .ok n

/-- The `message` lookup in the orchestrator: `KeyError` when the
column is absent; a `None` value (short row) is passed along as-is. -/
def getMessage (row : Row) : Except Err (Option String) :=
  match dictGet row "message" with
  | none => .error (.keyError "message")
  | some v => .ok v

/-- State threaded through the row loop: the `user_activity` table plus a
log of every message sent to the translation endpoint and to the scoring
endpoint (one entry per HTTP call actually made). -/
structure ProcState where
  store : List Entry
  tCalls : List (Option String)
  sCalls : List String
  deriving DecidableEq, Repr

/-- The row loop of `ContentModerationSystem.process`: for each row in
order, parse `user_id`, fetch `message`, call the translation service,
call the scoring service on the translated text, and append the entry to
the store.  The first exception aborts the loop, leaving the state as it
was at that point. -/
def processRows (tSvc : Option String → QueryResult)
    (sSvc : String → QueryResult) :
    List Row → ProcState → Except Err Unit × ProcState
  | [], st => (.ok (), st)
  | row :: rest, st =>
    match getUserId row with
    | .error e => (.error e, st)
    | .ok uid =>
      match getMessage row with
      | .error e => (.error e, st)
      | .ok msg =>
        let st1 : ProcState := { st with tCalls := st.tCalls ++ [msg] }
        match get_translated_message tSvc msg with
        | .error e => (.error e, st1)
        | .ok tm =>
          let st2 : ProcState := { st1 with sCalls := st1.sCalls ++ [tm] }
          match get_score sSvc tm with
          | .error e => (.error e, st2)
          | .ok sc =>
            processRows tSvc sSvc rest
              { st2 with
                store := DatabaseManager.store_user_activity st2.store uid tm sc }

/-- `ContentModerationSystem._validate_file_paths`: an empty (or, at the
CLI, missing — argparse defaults both options to the empty string) path
raises `MissingFileArgumentError`. -/
def validate_file_paths (input_file output_file : String) : Except Err Unit :=
  if input_file = "" || output_file = "" then .error .missingFileArgument
  else .ok ()

/-- A cell written to the output CSV, kept symbolic (the program hands
`csv.DictWriter` an int, an int, and a float per data row). -/
inductive Cell where
  | intCell (n : Int)
  | natCell (n : Nat)
  | ratCell (q : Rat)
  deriving DecidableEq, Repr

/-- The `fieldnames` handed to `csv.DictWriter`. -/
def fieldnames : List String := ["user_id", "total_messages", "avg_score"]

/-- The dict built for one statistic by the comprehension in `_write_output`. -/
def convertStat (s : UserStat) : List (String × Cell) :=
  [("user_id", .intCell s.user_id),
   ("total_messages", .natCell s.total_messages),
   ("avg_score", .ratCell s.avg_score)]

/-- One line of the output file: the header line (its column names) or a
data line (its cells). -/
inductive OutRow where
  | headerRow (cells : List String)
  | dataRow (cells : List Cell)
  deriving DecidableEq, Repr

/-- `csv.DictWriter.writerow`: the dict values extracted in `fieldnames`
order. -/
def dictWriterRow (d : List (String × Cell)) : List Cell :=
  fieldnames.filterMap (fun k => (d.find? (fun p => p.1 == k)).map Prod.snd)

/-- `ContentModerationSystem._write_output`: convert the statistics to
dicts, write the header via `writeheader()`, then one row per dict in
order. -/
def write_output (data : List UserStat) : List OutRow :=
  let converted := data.map convertStat
  OutRow.headerRow fieldnames :: converted.map (fun d => OutRow.dataRow (dictWriterRow d))

/-- `ContentModerationSystem.process`: validate the paths, read the
input, run the row loop, aggregate, and write the report.  The result is
the produced output file (when the run succeeds) together with the final
store and the log of service calls. -/
def process (tSvc : Option String → QueryResult) (sSvc : String → QueryResult)
    (fs : String → Option CsvFile) (input_file output_file : String)
    (store : List Entry) : Except Err (List OutRow) × ProcState :=
  match validate_file_paths input_file output_file with
  | .error e => (.error e, ⟨store, [], []⟩)
  | .ok _ =>
    match get_input (fs input_file) with
    | .error e => (.error e, ⟨store, [], []⟩)
    | .ok rows =>
      match processRows tSvc sSvc rows ⟨store, [], []⟩ with
      | (.error e, st) => (.error e, st)
      | (.ok _, st) =>
        (.ok (write_output (DatabaseManager.generate_user_statistics st.store)), st)

/-- `main`: initialize the database (clearing any rows left by a previous
run), then process. -/
def mainRun (tSvc : Option String → QueryResult) (sSvc : String → QueryResult)
    (fs : String → Option CsvFile) (input_file output_file : String)
    (initialStore : List Entry) : Except Err (List OutRow) × ProcState :=
  process tSvc sSvc fs input_file output_file
    (DatabaseManager.initializeDb initialStore)

/-- Does a query result carry a payload with an `error` field?  (This is
the only condition, besides a transport failure, that the program treats
as a service failure.) -/
def hasErrorPayload (q : QueryResult) : Bool :=
  match q with
  | .transportError _ => false
  | .response _ p => p.error.isSome

/-! Concrete fixtures used by the witness and counterexample theorems. -/

/-- A JSON object with none of the recognised fields. -/
def emptyPayload : Payload := ⟨none, none, none⟩

/-- A translation service answering 500 with an empty JSON object. -/
def svc500 : Option String → QueryResult := fun _ => .response 500 emptyPayload

/-- A scoring service answering 500 with an empty JSON object. -/
def svc500s : String → QueryResult := fun _ => .response 500 emptyPayload

/-- A well-behaved translation service: echoes the message back. -/
def idTSvc : Option String → QueryResult :=
  fun m => .response 200 ⟨none, some (m.getD ""), none⟩

/-- A well-behaved scoring service: always scores 1/2. -/
def halfSSvc : String → QueryResult :=
  fun _ => .response 200 ⟨none, none, some (1 / 2 : Rat)⟩

/-- An error payload as the mock services produce on failure. -/
def errPayload : Payload := ⟨some "boom", none, none⟩

/-- A translation service failing (error payload, status 400) on the
message "bad" and echoing otherwise. -/
def errOnBadTSvc : Option String → QueryResult :=
  fun m =>
    if m = some "bad" then .response 400 errPayload
    else .response 200 ⟨none, some (m.getD ""), none⟩

/-- The three-row input of the test scenario in the spec (two users). -/
def exFile : CsvFile :=
  ⟨["user_id", "message"],
   [["28391029", "hello"], ["28391029", "great video"], ["42432992", "wow"]]⟩

/-- A filesystem exposing `exFile` at `input.csv`. -/
def exFs : String → Option CsvFile :=
  fun p => if p = "input.csv" then some exFile else none

/-- An input whose header lacks the `message` column. -/
def noMessageFile : CsvFile := ⟨["user_id"], [["28391029"]]⟩

/-- An input whose second row fails on the translation service. -/
def errFile : CsvFile := ⟨["user_id", "message"], [["1", "hi"], ["2", "bad"]]⟩

/-- An input whose second row has a non-integer `user_id`. -/
def badUidFile : CsvFile := ⟨["user_id", "message"], [["1", "hi"], ["abc", "yo"]]⟩

/-- The loop state after the row `("1", "hi")` succeeded with `idTSvc`
(or `errOnBadTSvc`) and `halfSSvc`. -/
def stAfterOne : ProcState := ⟨[⟨1, "hi", 1 / 2⟩], [some "hi"], ["hi"]⟩

/-- The store contents produced by running `exFile` through `idTSvc` and
`halfSSvc`. -/
def exStore : List Entry :=
  [⟨28391029, "hello", 1 / 2⟩, ⟨28391029, "great video", 1 / 2⟩,
   ⟨42432992, "wow", 1 / 2⟩]

/-- The loop state after running `exFile` through `idTSvc` and
`halfSSvc`. -/
def exSt : ProcState :=
  ⟨exStore, [some "hello", some "great video", some "wow"],
   ["hello", "great video", "wow"]⟩

/-- A store holding two entries for user 7, scores 0 and 1. -/
def boundStore : List Entry := [⟨7, "a", 0⟩, ⟨7, "b", 1⟩]

/-! Helper lemmas. -/

/-- The `int` conversion model on the inputs that distinguish CPython
from an ASCII-only parser: Arabic-Indic and fullwidth digits convert,
NBSP padding is stripped, the ASCII sign combines with non-ASCII digits,
a single underscore groups digits, while a zero-width space (not
whitespace to the conversion), an unstripped ASCII control, and letters
all raise `ValueError`.  Each line matches the CPython 3.11 result. -/
theorem pyIntParse_cpython_agreement :
    pyIntParse "٤٢" = some 42 ∧
    pyIntParse "\u00A042\u00A0" = some 42 ∧
    pyIntParse "１２３" = some 123 ∧
    pyIntParse "-٤٢" = some (-42) ∧
    pyIntParse "4_2" = some 42 ∧
    pyIntParse "\u200B42" = none ∧
    pyIntParse "\x1C42\x1C" = none ∧
    pyIntParse "abc" = none := by
  refine ⟨?_, ?_, ?_, ?_, ?_, ?_, ?_, ?_⟩ <;> decide

/-- The output of the report writer, computed: the header line followed by one
data line per statistic, in order, cells in `fieldnames` order. -/
theorem write_output_shape (data : List UserStat) :
    write_output data =
      OutRow.headerRow ["user_id", "total_messages", "avg_score"] ::
        data.map (fun s => OutRow.dataRow
          [Cell.intCell s.user_id, Cell.natCell s.total_messages,
           Cell.ratCell s.avg_score]) := by
  induction data with
  | nil => rfl
  | cons s rest ih =>
    simp only [write_output, List.map_cons, List.map_map] at ih ⊢
    rw [List.cons.injEq] at ih ⊢
    exact ⟨rfl, by rw [List.cons.injEq]; exact ⟨rfl, ih.2⟩⟩

/-- A row whose `user_id` cannot be turned into an int aborts the loop
immediately: the state (store and both call logs) is exactly what it was
before the row. -/
theorem processRows_uidErr (tSvc : Option String → QueryResult)
    (sSvc : String → QueryResult) (row : Row) (rest : List Row)
    (st : ProcState) (e : Err) (h : getUserId row = .error e) :
    processRows tSvc sSvc (row :: rest) st = (.error e, st) := by
  simp only [processRows, h]

/-- A row whose `message` lookup raises aborts the loop immediately. -/
theorem processRows_msgErr (tSvc : Option String → QueryResult)
    (sSvc : String → QueryResult) (row : Row) (rest : List Row)
    (st : ProcState) (uid : Int) (e : Err)
    (hu : getUserId row = .ok uid) (h : getMessage row = .error e) :
    processRows tSvc sSvc (row :: rest) st = (.error e, st) := by
  simp only [processRows, hu, h]

/-- A failing translation call aborts the loop: the call is logged but
nothing is stored. -/
theorem processRows_transErr (tSvc : Option String → QueryResult)
    (sSvc : String → QueryResult) (row : Row) (rest : List Row)
    (st : ProcState) (uid : Int) (msg : Option String) (e : Err)
    (hu : getUserId row = .ok uid) (hm : getMessage row = .ok msg)
    (h : get_translated_message tSvc msg = .error e) :
    processRows tSvc sSvc (row :: rest) st =
      (.error e, { st with tCalls := st.tCalls ++ [msg] }) := by
  simp only [processRows, hu, hm, h]

/-- A failing scoring call aborts the loop: both calls are logged but
nothing is stored. -/
theorem processRows_scoreErr (tSvc : Option String → QueryResult)
    (sSvc : String → QueryResult) (row : Row) (rest : List Row)
    (st : ProcState) (uid : Int) (msg : Option String) (tm : String) (e : Err)
    (hu : getUserId row = .ok uid) (hm : getMessage row = .ok msg)
    (ht : get_translated_message tSvc msg = .ok tm)
    (h : get_score sSvc tm = .error e) :
    processRows tSvc sSvc (row :: rest) st =
      (.error e,
       { st with tCalls := st.tCalls ++ [msg], sCalls := st.sCalls ++ [tm] }) := by
  simp only [processRows, hu, hm, ht, h]

/-- Processing a concatenation runs the first part and, if it succeeded,
continues with the second from the reached state. -/
theorem processRows_append (tSvc : Option String → QueryResult)
    (sSvc : String → QueryResult) (l1 l2 : List Row) (st : ProcState) :
    processRows tSvc sSvc (l1 ++ l2) st =
      match processRows tSvc sSvc l1 st with
      | (.error e, st1) => (.error e, st1)
      | (.ok _, st1) => processRows tSvc sSvc l2 st1 := by
  induction l1 generalizing st with
  | nil => simp [processRows]
  | cons row rest ih =>
    cases hu : getUserId row with
    | error e => simp only [List.cons_append, processRows, hu]
    | ok uid =>
      cases hm : getMessage row with
      | error e => simp only [List.cons_append, processRows, hu, hm]
      | ok msg =>
        cases ht : get_translated_message tSvc msg with
        | error e => simp only [List.cons_append, processRows, hu, hm, ht]
        | ok tm =>
          cases hs : get_score sSvc tm with
          | error e => simp only [List.cons_append, processRows, hu, hm, ht, hs]
          | ok sc =>
            simp only [List.cons_append, processRows, hu, hm, ht, hs]
            exact ih _

/-- A successful loop run appends exactly one entry per row, in order,
each carrying the parsed `user_id` of its row. -/
theorem processRows_ok (tSvc : Option String → QueryResult)
    (sSvc : String → QueryResult) (rows : List Row) (st st' : ProcState)
    (h : processRows tSvc sSvc rows st = (.ok (), st')) :
    ∃ ents : List Entry, st'.store = st.store ++ ents ∧
      List.Forall₂ (fun (r : Row) (e : Entry) => getUserId r = .ok e.user_id)
        rows ents := by
  induction rows generalizing st with
  | nil =>
    simp only [processRows, Prod.mk.injEq] at h
    exact ⟨[], by simp [← h.2], List.Forall₂.nil⟩
  | cons row rest ih =>
    cases hu : getUserId row with
    | error e => simp [processRows, hu] at h
    | ok uid =>
      cases hm : getMessage row with
      | error e => simp [processRows, hu, hm] at h
      | ok msg =>
        cases ht : get_translated_message tSvc msg with
        | error e => simp [processRows, hu, hm, ht] at h
        | ok tm =>
          cases hs : get_score sSvc tm with
          | error e => simp [processRows, hu, hm, ht, hs] at h
          | ok sc =>
            simp only [processRows, hu, hm, ht, hs] at h
            obtain ⟨ents, hst, hfa⟩ := ih _ h
            refine ⟨⟨uid, tm, sc⟩ :: ents, ?_, List.Forall₂.cons hu hfa⟩
            simpa [DatabaseManager.store_user_activity] using hst

/-- A response whose payload carries an `error` field makes the
translation lookup raise `APIServiceError`. -/
theorem get_translated_message_err (tSvc : Option String → QueryResult)
    (msg : Option String) (h : hasErrorPayload (tSvc msg) = true) :
    get_translated_message tSvc msg = .error .apiServiceError := by
  cases hq : tSvc msg with
  | transportError d => rw [hq] at h; simp [hasErrorPayload] at h
  | response status p =>
    rw [hq] at h
    simp only [hasErrorPayload] at h
    simp [get_translated_message, query_service, hq, h]

/-- A response whose payload carries an `error` field makes the scoring
lookup raise `APIServiceError`. -/
theorem get_score_err (sSvc : String → QueryResult) (tm : String)
    (h : hasErrorPayload (sSvc tm) = true) :
    get_score sSvc tm = .error .apiServiceError := by
  cases hq : sSvc tm with
  | transportError d => rw [hq] at h; simp [hasErrorPayload] at h
  | response status p =>
    rw [hq] at h
    simp only [hasErrorPayload] at h
    simp [get_score, query_service, hq, h]

/-- The aggregated user ids are the distinct user ids of the store. -/
theorem gus_map_user (store : List Entry) :
    (DatabaseManager.generate_user_statistics store).map UserStat.user_id =
      (store.map Entry.user_id).dedup := by
  simp only [DatabaseManager.generate_user_statistics, List.map_map]
  exact List.map_id' _

/-- Each aggregated row carries the size of its group as count and the
mean score of its group as average. -/
theorem gus_fields (store : List Entry) (s : UserStat)
    (h : s ∈ DatabaseManager.generate_user_statistics store) :
    s.total_messages =
      (store.filter (fun e => e.user_id == s.user_id)).length ∧
    s.avg_score =
      ((store.filter (fun e => e.user_id == s.user_id)).map
        Entry.calculated_score).sum /
      ((((store.filter (fun e => e.user_id == s.user_id)).map
        Entry.calculated_score).length : Nat) : Rat) := by
  obtain ⟨u, hu, rfl⟩ := List.mem_map.mp h
  exact ⟨by simp, by simp⟩

/-- A user is aggregated exactly when the store holds an entry of theirs. -/
theorem gus_mem (store : List Entry) (u : Int) :
    (∃ s ∈ DatabaseManager.generate_user_statistics store, s.user_id = u) ↔
      ∃ e ∈ store, e.user_id = u := by
  constructor
  · rintro ⟨s, hs, rfl⟩
    have hmem : s.user_id ∈
        (DatabaseManager.generate_user_statistics store).map UserStat.user_id :=
      List.mem_map_of_mem _ hs
    rw [gus_map_user, List.mem_dedup] at hmem
    exact List.mem_map.mp hmem
  · rintro ⟨e, he, rfl⟩
    have hmem : e.user_id ∈ (store.map Entry.user_id).dedup :=
      List.mem_dedup.mpr (List.mem_map_of_mem _ he)
    rw [← gus_map_user] at hmem
    exact List.mem_map.mp hmem

/-- Pairing rows with their stored entries preserves the per-user row
count. -/
theorem forall2_filter_length {rows : List Row} {ents : List Entry}
    (h : List.Forall₂ (fun (r : Row) (e : Entry) => getUserId r = .ok e.user_id)
      rows ents) (u : Int) :
    (ents.filter (fun e => e.user_id == u)).length =
      (rows.filter (fun r => decide (getUserId r = Except.ok u))).length := by
  induction h with
  | nil => rfl
  | @cons r e rs es hre _ ih =>
    by_cases he : e.user_id = u
    · have hr : getUserId r = Except.ok u := by rw [hre, he]
      simp [List.filter_cons, he, hr, ih]
    · have hr : ¬ getUserId r = Except.ok u := by
        rw [hre]
        simpa using he
      simp [List.filter_cons, he, hr, ih]

/-- Pairing rows with their stored entries preserves which users occur. -/
theorem forall2_mem_user {rows : List Row} {ents : List Entry}
    (h : List.Forall₂ (fun (r : Row) (e : Entry) => getUserId r = .ok e.user_id)
      rows ents) (u : Int) :
    (∃ e ∈ ents, e.user_id = u) ↔ ∃ r ∈ rows, getUserId r = Except.ok u := by
  induction h with
  | nil => simp
  | @cons r e rs es hre _ ih =>
    simp only [List.mem_cons]
    constructor
    · rintro ⟨x, hx | hx, hxu⟩
      · subst hx
        exact ⟨r, Or.inl rfl, by rw [hre, hxu]⟩
      · obtain ⟨r', hr', hu'⟩ := ih.mp ⟨x, hx, hxu⟩
        exact ⟨r', Or.inr hr', hu'⟩
    · rintro ⟨x, hx | hx, hxu⟩
      · subst hx
        rw [hre] at hxu
        exact ⟨e, Or.inl rfl, Except.ok.inj hxu⟩
      · obtain ⟨e', he', hu'⟩ := ih.mpr ⟨x, hx, hxu⟩
        exact ⟨e', Or.inr he', hu'⟩

/-- The mean of a non-empty list of rationals from [0, 1] lies in [0, 1]. -/
theorem mean_unit_range (l : List Rat) (hne : l ≠ [])
    (hb : ∀ x ∈ l, 0 ≤ x ∧ x ≤ 1) :
    0 ≤ l.sum / ((l.length : Nat) : Rat) ∧
      l.sum / ((l.length : Nat) : Rat) ≤ 1 := by
  have hlen : (0 : Rat) < ((l.length : Nat) : Rat) := by
    have h1 : 0 < l.length := List.length_pos.mpr hne
    exact_mod_cast h1
  constructor
  · exact div_nonneg (List.sum_nonneg fun x hx => (hb x hx).1) hlen.le
  · rw [div_le_one hlen]
    have h2 := List.sum_le_card_nsmul l 1 fun x hx => (hb x hx).2
    simpa [nsmul_eq_mul] using h2

/-! The claims. -/

/-- Claim C4: with an empty (or missing — argparse defaults a missing
option to the empty string) input or output path, `process` fails with
`MissingFileArgument` and terminates before any input read, remote call,
or storage write: the store is returned unchanged and both call logs are
empty, for every filesystem and every pair of services. -/
theorem missing_path_fails (tSvc : Option String → QueryResult)
    (sSvc : String → QueryResult) (fs : String → Option CsvFile)
    (inp out : String) (store0 : List Entry) (h : inp = "" ∨ out = "") :
    process tSvc sSvc fs inp out store0 =
      (.error .missingFileArgument, ⟨store0, [], []⟩) := by
  rcases h with rfl | rfl <;> simp [process, validate_file_paths]

/-- Witness for claim C4 at a concrete input: empty input path, concrete
services, a populated store that stays untouched. -/
theorem missing_path_fails_witness :
    process idTSvc halfSSvc exFs "" "out.csv" [⟨1, "a", 1⟩] =
      (.error .missingFileArgument, ⟨[⟨1, "a", 1⟩], [], []⟩) :=
  missing_path_fails idTSvc halfSSvc exFs "" "out.csv" [⟨1, "a", 1⟩] (Or.inl rfl)

/-- Claim C5: appending any number of entries to any store, then
reinitializing, then aggregating yields an empty result — `initialize`
clears all previously stored entries (the table is recreated if absent
and emptied). -/
theorem reinitialize_clears (store0 : List Entry)
    (entries : List (Int × String × Rat)) :
    DatabaseManager.generate_user_statistics
      (DatabaseManager.initializeDb
        (entries.foldl
          (fun st e => DatabaseManager.store_user_activity st e.1 e.2.1 e.2.2)
          store0)) = [] := rfl

/-- Counterexample for claim C1: the translation (and scoring) call does
not surface an error on a non-2xx response — a 500 response whose JSON
object has no `error` field makes `_get_translated_message` return the
default empty string and `_get_score` return the default score 0. -/
theorem non2xx_default_cex :
    svc500 (some "hello") = .response 500 emptyPayload ∧
    emptyPayload.error = none ∧
    get_translated_message svc500 (some "hello") = .ok "" ∧
    get_score svc500s "hello" = .ok 0 :=
  ⟨rfl, rfl, rfl, rfl⟩

/-- Claim C1 as amended: a service call surfaces an error exactly when
the transport fails or the payload carries an `error` field; the HTTP
status code is never inspected, and a payload without `error` and without
the expected field yields the default value (empty string for the
translation, 0 for the score). -/
theorem service_error_iff (tSvc : Option String → QueryResult)
    (sSvc : String → QueryResult) (msg : Option String) (tm : String) :
    ((∃ e, get_translated_message tSvc msg = .error e) ↔
      (∃ d, tSvc msg = .transportError d) ∨ hasErrorPayload (tSvc msg) = true) ∧
    ((∃ e, get_score sSvc tm = .error e) ↔
      (∃ d, sSvc tm = .transportError d) ∨ hasErrorPayload (sSvc tm) = true) ∧
    (∀ status p, tSvc msg = .response status p → p.error = none →
      p.translated_message = none → get_translated_message tSvc msg = .ok "") ∧
    (∀ status p, sSvc tm = .response status p → p.error = none →
      p.score = none → get_score sSvc tm = .ok 0) := by
  refine ⟨?_, ?_, ?_, ?_⟩
  · cases hq : tSvc msg with
    | transportError d =>
      simp [get_translated_message, query_service, hasErrorPayload, hq]
    | response status p =>
      by_cases he : p.error.isSome <;>
        simp [get_translated_message, query_service, hasErrorPayload, hq, he]
  · cases hq : sSvc tm with
    | transportError d =>
      simp [get_score, query_service, hasErrorPayload, hq]
    | response status p =>
      by_cases he : p.error.isSome <;>
        simp [get_score, query_service, hasErrorPayload, hq, he]
  · intro status p hq he htm
    simp [get_translated_message, query_service, hq, he, htm]
  · intro status p hq he hsc
    simp [get_score, query_service, hq, he, hsc]

/-- Witness for the amended claim C1 at a concrete input: the 500
response with an empty payload yields the default translation. -/
theorem service_error_iff_witness :
    get_translated_message svc500 (some "x") = .ok "" :=
  (service_error_iff svc500 svc500s (some "x") "x").2.2.1 500 emptyPayload
    rfl rfl rfl

/-- Counterexample for claim C7: the Input Reader does not fail on a row
missing a required field — with the `message` column absent it yields the
row as-is, and the failure happens later, in the row loop of the
orchestrator, as a `KeyError` (there is no `InputMalformed` failure in the program). -/
theorem reader_missing_field_cex :
    get_input (some noMessageFile) = .ok [[("user_id", some "28391029")]] ∧
    processRows idTSvc halfSSvc (dictReader noMessageFile) ⟨[], [], []⟩ =
      (.error (.keyError "message"), ⟨[], [], []⟩) :=
  ⟨rfl, rfl⟩

/-- Claim C3: when the first `i` rows process cleanly and the
translation or scoring call for row `i` answers with an error payload, the whole run
aborts with `APIServiceError`; the final store holds exactly one entry
per row before `i` (appended on top of the initial store, so earlier
entries remain) and nothing for row `i` or any later row. -/
theorem abort_on_service_error (tSvc : Option String → QueryResult)
    (sSvc : String → QueryResult) (rows : List Row) (st0 stI : ProcState)
    (i : Nat) (hi : i < rows.length)
    (hpre : processRows tSvc sSvc (rows.take i) st0 = (.ok (), stI))
    (uid : Int) (msg : Option String)
    (hu : getUserId rows[i] = .ok uid)
    (hm : getMessage rows[i] = .ok msg)
    (herr : hasErrorPayload (tSvc msg) = true ∨
      ∃ tm, get_translated_message tSvc msg = .ok tm ∧
        hasErrorPayload (sSvc tm) = true) :
    ∃ stE, processRows tSvc sSvc rows st0 = (.error .apiServiceError, stE) ∧
      stE.store = stI.store ∧
      ∃ ents, stI.store = st0.store ++ ents ∧
        List.Forall₂ (fun (r : Row) (e : Entry) => getUserId r = .ok e.user_id)
          (rows.take i) ents := by
  obtain ⟨ents, hst, hfa⟩ := processRows_ok tSvc sSvc (rows.take i) st0 stI hpre
  have hrun : processRows tSvc sSvc rows st0 =
      processRows tSvc sSvc (rows.drop i) stI := by
    conv_lhs => rw [← List.take_append_drop i rows]
    rw [processRows_append, hpre]
  rw [hrun, List.drop_eq_getElem_cons hi]
  rcases herr with h1 | ⟨tm, htm, h2⟩
  · rw [processRows_transErr tSvc sSvc _ _ stI uid msg _ hu hm
      (get_translated_message_err tSvc msg h1)]
    exact ⟨_, rfl, rfl, ents, hst, hfa⟩
  · rw [processRows_scoreErr tSvc sSvc _ _ stI uid msg tm _ hu hm htm
      (get_score_err sSvc tm h2)]
    exact ⟨_, rfl, rfl, ents, hst, hfa⟩

/-- Witness for claim C3 at a concrete input: the message "bad" of the
second row draws an error payload from the translation service; the run
aborts keeping only the entry of the first row. -/
theorem abort_on_service_error_witness :
    ∃ stE, processRows errOnBadTSvc halfSSvc (dictReader errFile) ⟨[], [], []⟩ =
      (.error .apiServiceError, stE) ∧
      stE.store = stAfterOne.store ∧
      ∃ ents, stAfterOne.store = ProcState.store ⟨[], [], []⟩ ++ ents ∧
        List.Forall₂ (fun (r : Row) (e : Entry) => getUserId r = .ok e.user_id)
          ((dictReader errFile).take 1) ents :=
  abort_on_service_error errOnBadTSvc halfSSvc (dictReader errFile)
    ⟨[], [], []⟩ stAfterOne 1 (by decide) rfl 2 (some "bad")
    rfl rfl (Or.inl rfl)

/-- Claim C9: when the first `i` rows process cleanly and the
`user_id` of row `i` is missing or not an integer literal, the run aborts at that
row with a `KeyError`, `TypeError`, or `ValueError`, before any remote
call is made for that row: the final state (store and both call logs) is
exactly the state after row `i - 1`. -/
theorem invalid_user_id_aborts (tSvc : Option String → QueryResult)
    (sSvc : String → QueryResult) (rows : List Row) (st0 stI : ProcState)
    (i : Nat) (hi : i < rows.length)
    (hpre : processRows tSvc sSvc (rows.take i) st0 = (.ok (), stI))
    (hbad : dictGet rows[i] "user_id" = none ∨
      dictGet rows[i] "user_id" = some none ∨
      ∃ s, dictGet rows[i] "user_id" = some (some s) ∧ pyIntParse s = none) :
    ∃ e, processRows tSvc sSvc rows st0 = (.error e, stI) ∧
      (e = .keyError "user_id" ∨ e = .typeError ∨ ∃ s, e = .valueError s) := by
  have hrun : processRows tSvc sSvc rows st0 =
      processRows tSvc sSvc (rows.drop i) stI := by
    conv_lhs => rw [← List.take_append_drop i rows]
    rw [processRows_append, hpre]
  have hbad2 : ∃ e, getUserId rows[i] = .error e ∧
      (e = .keyError "user_id" ∨ e = .typeError ∨ ∃ s, e = .valueError s) := by
    rcases hbad with h | h | ⟨s, h, hp⟩
    · exact ⟨_, by simp [getUserId, h], Or.inl rfl⟩
    · exact ⟨_, by simp [getUserId, h], Or.inr (Or.inl rfl)⟩
    · exact ⟨_, by simp [getUserId, h, hp], Or.inr (Or.inr ⟨s, rfl⟩)⟩
  obtain ⟨e, he, hshape⟩ := hbad2
  refine ⟨e, ?_, hshape⟩
  rw [hrun, List.drop_eq_getElem_cons hi,
    processRows_uidErr tSvc sSvc _ _ stI e he]

/-- Witness for claim C9 at a concrete input: a second row with user_id
"abc" aborts the run with a `ValueError` after the first row, and the
service-call logs stop at the calls of the first row. -/
theorem invalid_user_id_aborts_witness :
    ∃ e, processRows idTSvc halfSSvc (dictReader badUidFile) ⟨[], [], []⟩ =
      (.error e, stAfterOne) ∧
      (e = .keyError "user_id" ∨ e = .typeError ∨ ∃ s, e = .valueError s) :=
  invalid_user_id_aborts idTSvc halfSSvc (dictReader badUidFile)
    ⟨[], [], []⟩ stAfterOne 1 (by decide) rfl
    (Or.inr (Or.inr ⟨"abc", rfl, rfl⟩))

/-- Claim C7 as amended: the Input Reader fails exactly when the path
cannot be opened (with the underlying `IOError`, named
`InputUnavailable` by the spec); it performs no per-row field validation — a row
missing a required field is yielded as-is, and the failure surfaces in
the row loop of the orchestrator as a `KeyError` when the absent column is
accessed (no `InputMalformed` failure exists in the program). -/
theorem reader_failure_semantics :
    (∀ file : Option CsvFile, get_input file = .error .ioError ↔ file = none) ∧
    (∀ (tSvc : Option String → QueryResult) (sSvc : String → QueryResult)
        (row : Row) (rest : List Row) (st : ProcState),
      dictGet row "user_id" = none →
        processRows tSvc sSvc (row :: rest) st =
          (.error (.keyError "user_id"), st)) ∧
    (∀ (tSvc : Option String → QueryResult) (sSvc : String → QueryResult)
        (row : Row) (rest : List Row) (st : ProcState) (uid : Int),
      getUserId row = .ok uid → dictGet row "message" = none →
        processRows tSvc sSvc (row :: rest) st =
          (.error (.keyError "message"), st)) := by
  refine ⟨?_, ?_, ?_⟩
  · intro file
    cases file with
    | none => simp [get_input]
    | some f => simp [get_input]
  · intro tSvc sSvc row rest st h
    exact processRows_uidErr tSvc sSvc row rest st _ (by simp [getUserId, h])
  · intro tSvc sSvc row rest st uid hu h
    exact processRows_msgErr tSvc sSvc row rest st uid _ hu
      (by simp [getMessage, h])

/-- Witness for the amended claim C7 at a concrete input: a row without
a `user_id` column aborts the loop with `KeyError`, state untouched. -/
theorem reader_failure_semantics_witness :
    processRows idTSvc halfSSvc [[("message", some "hi")]] ⟨[], [], []⟩ =
      (.error (.keyError "user_id"), ⟨[], [], []⟩) :=
  reader_failure_semantics.2.1 idTSvc halfSSvc [("message", some "hi")] []
    ⟨[], [], []⟩ rfl

/-- Claim C10: a readable input with a header and zero data rows makes
the whole pipeline succeed with no remote call and no store append: both
call logs and the store end empty, the aggregate is empty, and the output
is exactly the header row. -/
theorem header_only_run (tSvc : Option String → QueryResult)
    (sSvc : String → QueryResult) (fs : String → Option CsvFile)
    (inp out : String) (store0 : List Entry) (hdr : List String)
    (h1 : inp ≠ "") (h2 : out ≠ "") (hf : fs inp = some ⟨hdr, []⟩) :
    mainRun tSvc sSvc fs inp out store0 =
      (.ok [OutRow.headerRow ["user_id", "total_messages", "avg_score"]],
       ⟨[], [], []⟩) := by
  have hv : validate_file_paths inp out = .ok () := by
    simp [validate_file_paths, h1, h2]
  simp [mainRun, process, DatabaseManager.initializeDb, hv, hf, get_input,
    dictReader, processRows, DatabaseManager.generate_user_statistics,
    write_output, fieldnames]

/-- Witness for claim C10 at a concrete input: a header-only file. -/
theorem header_only_run_witness :
    mainRun idTSvc halfSSvc (fun _ => some ⟨["user_id", "message"], []⟩)
      "in.csv" "out.csv" [⟨1, "a", 1⟩] =
      (.ok [OutRow.headerRow ["user_id", "total_messages", "avg_score"]],
       ⟨[], [], []⟩) :=
  header_only_run idTSvc halfSSvc (fun _ => some ⟨["user_id", "message"], []⟩)
    "in.csv" "out.csv" [⟨1, "a", 1⟩] ["user_id", "message"]
    (by decide) (by decide) rfl

/-- Claim C2: a completed pipeline run yields one output data row per
distinct user_id of the input (no duplicates, none missing, none extra),
and `total_messages` of each user equals the number of input rows whose
`user_id` parses to that user. -/
theorem pipeline_aggregate_counts (tSvc : Option String → QueryResult)
    (sSvc : String → QueryResult) (fs : String → Option CsvFile)
    (inp out : String) (store0 : List Entry)
    (outRows : List OutRow) (stf : ProcState)
    (h : mainRun tSvc sSvc fs inp out store0 = (.ok outRows, stf)) :
    ∃ f, fs inp = some f ∧
      outRows =
        OutRow.headerRow ["user_id", "total_messages", "avg_score"] ::
          (DatabaseManager.generate_user_statistics stf.store).map (fun s =>
            OutRow.dataRow [Cell.intCell s.user_id,
              Cell.natCell s.total_messages, Cell.ratCell s.avg_score]) ∧
      ((DatabaseManager.generate_user_statistics stf.store).map
        UserStat.user_id).Nodup ∧
      (∀ u : Int,
        (∃ s ∈ DatabaseManager.generate_user_statistics stf.store,
          s.user_id = u) ↔
          ∃ r ∈ dictReader f, getUserId r = Except.ok u) ∧
      (∀ s ∈ DatabaseManager.generate_user_statistics stf.store,
        s.total_messages =
          ((dictReader f).filter
            (fun r => decide (getUserId r = Except.ok s.user_id))).length) := by
  cases hv : validate_file_paths inp out with
  | error e => simp [mainRun, process, hv] at h
  | ok u0 =>
    cases hfs : fs inp with
    | none => simp [mainRun, process, hv, get_input, hfs] at h
    | some f =>
      simp only [mainRun, process, hv, get_input, hfs,
        DatabaseManager.initializeDb] at h
      rcases hp : processRows tSvc sSvc (dictReader f) ⟨[], [], []⟩
        with ⟨res, st⟩
      rw [hp] at h
      cases res with
      | error e => simp at h
      | ok u1 =>
        simp only [Prod.mk.injEq, Except.ok.injEq] at h
        obtain ⟨hout, hst⟩ := h
        subst hst
        cases u1
        obtain ⟨ents, hstore, hfa⟩ :=
          processRows_ok tSvc sSvc (dictReader f) ⟨[], [], []⟩ st hp
        rw [List.nil_append] at hstore
        refine ⟨f, rfl, ?_, ?_, ?_, ?_⟩
        · rw [← hout]
          exact write_output_shape _
        · rw [gus_map_user]
          exact List.nodup_dedup _
        · intro u
          exact (gus_mem st.store u).trans
            (by rw [hstore]; exact forall2_mem_user hfa u)
        · intro s hs
          rw [(gus_fields st.store s hs).1, hstore]
          exact forall2_filter_length hfa s.user_id

/-- Witness for claim C2 at a concrete input: the three-row,
two-user scenario from the spec, identity translation, constant score 1/2. -/
theorem pipeline_aggregate_counts_witness :
    ∃ f, exFs "input.csv" = some f ∧
      write_output (DatabaseManager.generate_user_statistics exSt.store) =
        OutRow.headerRow ["user_id", "total_messages", "avg_score"] ::
          (DatabaseManager.generate_user_statistics exSt.store).map (fun s =>
            OutRow.dataRow [Cell.intCell s.user_id,
              Cell.natCell s.total_messages, Cell.ratCell s.avg_score]) ∧
      ((DatabaseManager.generate_user_statistics exSt.store).map
        UserStat.user_id).Nodup ∧
      (∀ u : Int,
        (∃ s ∈ DatabaseManager.generate_user_statistics exSt.store,
          s.user_id = u) ↔
          ∃ r ∈ dictReader f, getUserId r = Except.ok u) ∧
      (∀ s ∈ DatabaseManager.generate_user_statistics exSt.store,
        s.total_messages =
          ((dictReader f).filter
            (fun r => decide (getUserId r = Except.ok s.user_id))).length) :=
  pipeline_aggregate_counts idTSvc halfSSvc exFs "input.csv" "out.csv" []
    (write_output (DatabaseManager.generate_user_statistics exSt.store))
    exSt rfl

/-- Claim C6: a user with at least one stored entry, all of whose stored
scores lie in [0, 1], gets an aggregated row whose `avg_score` is the
arithmetic mean of their stored scores and lies in [0, 1]. -/
theorem avg_score_unit_range (store : List Entry) (u : Int)
    (hmem : ∃ e ∈ store, e.user_id = u)
    (hbound : ∀ e ∈ store, e.user_id = u →
      0 ≤ e.calculated_score ∧ e.calculated_score ≤ 1) :
    ∃ s ∈ DatabaseManager.generate_user_statistics store,
      s.user_id = u ∧
      s.total_messages = (store.filter (fun e => e.user_id == u)).length ∧
      s.avg_score =
        ((store.filter (fun e => e.user_id == u)).map
          Entry.calculated_score).sum /
          ((((store.filter (fun e => e.user_id == u)).map
            Entry.calculated_score).length : Nat) : Rat) ∧
      0 ≤ s.avg_score ∧ s.avg_score ≤ 1 := by
  obtain ⟨s, hs, hsu⟩ := (gus_mem store u).mpr hmem
  obtain ⟨htot, havg⟩ := gus_fields store s hs
  rw [hsu] at htot havg
  obtain ⟨e0, he0, hu0⟩ := hmem
  have hescore : e0.calculated_score ∈
      (store.filter (fun e => e.user_id == u)).map Entry.calculated_score :=
    List.mem_map_of_mem _ (List.mem_filter.mpr ⟨he0, by simp [hu0]⟩)
  have hb : ∀ x ∈ (store.filter (fun e => e.user_id == u)).map
      Entry.calculated_score, 0 ≤ x ∧ x ≤ 1 := by
    intro x hx
    obtain ⟨e, hef, rfl⟩ := List.mem_map.mp hx
    obtain ⟨hes, heu⟩ := List.mem_filter.mp hef
    exact hbound e hes (by simpa using heu)
  have hb2 := mean_unit_range _ (List.ne_nil_of_mem hescore) hb
  rw [← havg] at hb2
  exact ⟨s, hs, hsu, htot, havg, hb2.1, hb2.2⟩

/-- Witness for claim C6 at a concrete input: user 7 with scores 0 and 1. -/
theorem avg_score_unit_range_witness :
    ∃ s ∈ DatabaseManager.generate_user_statistics boundStore,
      s.user_id = 7 ∧
      s.total_messages = (boundStore.filter (fun e => e.user_id == 7)).length ∧
      s.avg_score =
        ((boundStore.filter (fun e => e.user_id == 7)).map
          Entry.calculated_score).sum /
          ((((boundStore.filter (fun e => e.user_id == 7)).map
            Entry.calculated_score).length : Nat) : Rat) ∧
      0 ≤ s.avg_score ∧ s.avg_score ≤ 1 :=
  avg_score_unit_range boundStore 7 ⟨⟨7, "a", 0⟩, by decide, rfl⟩ (by decide)

/-- Claim C8: for every statistics sequence handed to the report writer,
the output is the header row `user_id,total_messages,avg_score` followed
by exactly one row per statistic, in the order received. -/
theorem report_rows_shape (data : List UserStat) :
    write_output data =
      OutRow.headerRow ["user_id", "total_messages", "avg_score"] ::
        data.map (fun s => OutRow.dataRow
          [Cell.intCell s.user_id, Cell.natCell s.total_messages,
           Cell.ratCell s.avg_score]) :=
  write_output_shape data

end CMS
